import Mathlib

/-!
Verification development for the `@jmondi/browser-storage` library
(`BrowserStorage` / `AsyncBrowserStorage` facades over key/value adapters).

The embedding mirrors the TypeScript source: JS runtime values are `JsVal`,
a serializer is a pair of possibly-throwing functions (`none` models a thrown
exception), an adapter is a record of state-passing operations, and the
in-memory adapter is an association list with JS `Map` semantics.  The field
named `prefix` in the source is called `pfx` here because `prefix` is a
reserved keyword in Lean.
-/

set_option autoImplicit false

namespace BrowserStorageModel

/-- JS runtime values, restricted to the scalar fragment the claims exercise.
`vNull` stands for the JS `null` result (absence and the null value collapse
at the facade boundary, exactly as they do in the source's `T | null`). -/
inductive JsVal where
  | vNull
  | vBool (b : Bool)
  | vNum (n : Int)
  | vStr (s : String)
  deriving DecidableEq, Repr

/-- The `Serializer` interface: `parse` and `stringify` may throw, which is
modelled by returning `none`. -/
structure Serializer where
  parse : String → Option JsVal
  stringify : JsVal → Option String

/-- `AbstractBrowserStorage.toStore`: strings are returned unchanged,
`undefined` (modelled as `none`) stores the serializer's encoding of null,
anything else is stringified.  `none` in the result models a thrown
exception from `stringify`. -/
def toStore (ser : Serializer) (value : Option JsVal) : Option String :=
  match value with
  | some (JsVal.vStr s) => some s
  | none => ser.stringify JsVal.vNull
  | some v => ser.stringify v

/-- `AbstractBrowserStorage.fromStore`: the literal string `"null"` is mapped
to `null` before the serializer is consulted; a missing item (`none`, the
non-string case in the source) is `null`; otherwise the serializer's `parse`
is attempted and, if it throws, the raw string is returned as-is (the
`(item as T) ?? null` fallback; a string is never nullish, so the fallback
is the string itself). -/
def fromStore (ser : Serializer) (item : Option String) : JsVal :=
  match item with
  | none => JsVal.vNull
  | some it =>
    if it = "null" then JsVal.vNull
    else
      match ser.parse it with
      | some v => v
      | none => JsVal.vStr it

/-- The state of the in-memory adapter: a JS `Map` from string keys to string
values, kept in insertion order. -/
abbrev Store := List (String × String)

/-- `Map.get` (as used by `MemoryStorageAdapter.getItem`): first entry with
the given key, `none` when absent. -/
def mapGet (m : Store) (k : String) : Option String :=
  match m with
  | [] => none
  | (k2, v) :: rest => if k2 = k then some v else mapGet rest k

/-- `Map.set`: update the value in place when the key exists (keeping its
insertion position), otherwise append a fresh entry. -/
def mapSet (m : Store) (k v : String) : Store :=
  match m with
  | [] => [(k, v)]
  | (k2, v2) :: rest => if k2 = k then (k2, v) :: rest else (k2, v2) :: mapSet rest k v

/-- `Map.delete`: remove the entry with the given key.  A JS `Map` never
holds duplicate keys, so removing every occurrence agrees with `Map.delete`
on all reachable states. -/
def mapDelete (m : Store) (k : String) : Store :=
  match m with
  | [] => []
  | (k2, v2) :: rest => if k2 = k then mapDelete rest k else (k2, v2) :: mapDelete rest k

/-- The `Adapter` interface, generic in the backing state `σ` and the
backend-specific `SetConfig` type `γ`.  `setItem` may throw (`none`);
`clear` is optional in the source, hence the `Option`. -/
structure Adapter (σ : Type) (γ : Type) where
  getItem : σ → String → Option String
  setItem : σ → String → String → Option γ → Option σ
  removeItem : σ → String → σ
  clear : Option (σ → σ)

/-- `MemoryStorageAdapter`: the in-memory reference adapter.  Its `setItem`
never throws and ignores the config argument, exactly as in the source. -/
def MemoryStorageAdapter (γ : Type) : Adapter Store γ :=
  { getItem := mapGet
    setItem := fun m k v _ => some (mapSet m k v)
    removeItem := mapDelete
    clear := some (fun _ => []) }

/-- The synchronous `BrowserStorage` facade: an adapter, a key prefix
(`pfx`), and a serializer. -/
structure BrowserStorage (σ γ : Type) where
  adapter : Adapter σ γ
  pfx : String
  serializer : Serializer

namespace BrowserStorage

variable {σ γ : Type}

/-- `BrowserStorage.get`: read `pfx + key` through `fromStore`. -/
def get (st : BrowserStorage σ γ) (s : σ) (key : String) : JsVal :=
  fromStore st.serializer (st.adapter.getItem s (st.pfx ++ key))

/-- `BrowserStorage.set`: `toStore` the value and `setItem` it under
`pfx + key`, all inside a `try`; any throw (from `stringify` or from the
adapter) yields `false` with the caller-visible state unchanged. -/
def set (st : BrowserStorage σ γ) (s : σ) (key : String) (value : Option JsVal)
    (config : Option γ) : Bool × σ :=
  match toStore st.serializer value with
  | none => (false, s)
  | some stored =>
    match st.adapter.setItem s (st.pfx ++ key) stored config with
    | none => (false, s)
    | some s2 => (true, s2)

/-- `BrowserStorage.remove`: delegate to `removeItem` on `pfx + key`. -/
def remove (st : BrowserStorage σ γ) (s : σ) (key : String) : σ :=
  st.adapter.removeItem s (st.pfx ++ key)

/-- `BrowserStorage.pop`: read the item as `get` does, then `remove` it. -/
def pop (st : BrowserStorage σ γ) (s : σ) (key : String) : JsVal × σ :=
  (fromStore st.serializer (st.adapter.getItem s (st.pfx ++ key)), st.remove s key)

/-- `BrowserStorage.clear`: the adapter's optional `clear`, a no-op when the
adapter has none. -/
def clear (st : BrowserStorage σ γ) (s : σ) : σ :=
  match st.adapter.clear with
  | some f => f s
  | none => s

end BrowserStorage

/-- The `DefineResponse` handle returned by `define`: get/set/remove/pop
closures bound to one fixed key. -/
structure DefineResponse (σ γ : Type) where
  get : σ → JsVal
  set : σ → Option JsVal → Option γ → Bool × σ
  remove : σ → σ
  pop : σ → JsVal × σ

namespace BrowserStorage

variable {σ γ : Type}

/-- `BrowserStorage.define`: closures delegating to the facade at the fixed
key; a per-call config of `none` falls back to `defaultConfig`
(the `config ?? defaultConfig` in the source). -/
def define (st : BrowserStorage σ γ) (key : String) (defaultConfig : Option γ) :
    DefineResponse σ γ :=
  { get := fun s => st.get s key
    set := fun s value config =>
      st.set s key value (match config with | some c => some c | none => defaultConfig)
    remove := fun s => st.remove s key
    pop := fun s => st.pop s key }

/-- `BrowserStorage.defineGroup`: `define` applied to each entry of a
logical-name to physical-key mapping (no default config is passed, as in
the source).  The mapping is an object, so key lookup is `mapGet`. -/
def defineGroup (st : BrowserStorage σ γ) (group : List (String × String))
    (name : String) : Option (DefineResponse σ γ) :=
  (mapGet group name).map (fun physical => st.define physical none)

end BrowserStorage

/-- The `AsyncBrowserStorage` facade.  `Promise`s are erased by the shallow
embedding (every `await` is sequential state passing), so the configuration
has the same shape as the synchronous one; the cache overlay
(`cachedAdapter`, a fresh in-memory adapter) is the extra piece of mutable
state and is threaded explicitly as a `Store`. -/
structure AsyncBrowserStorage (σ γ : Type) where
  adapter : Adapter σ γ
  pfx : String
  serializer : Serializer

namespace AsyncBrowserStorage

variable {σ γ : Type}

/-- `AsyncBrowserStorage.syncCache`: write every overlay entry to the real
adapter, in insertion order, awaiting each write; the keys are the overlay
keys verbatim (no prefixing) and no config is passed.  A throwing `setItem`
rejects the whole call (`none`). -/
def syncCache (st : AsyncBrowserStorage σ γ) (cache : Store) (s : σ) : Option σ :=
  match cache with
  | [] => some s
  | (k, v) :: rest =>
    match st.adapter.setItem s k v none with
    | none => none
    | some s2 => syncCache st rest s2

/-- `AsyncBrowserStorage.getCache`: read the overlay directly. -/
def getCache (cache : Store) (key : String) : Option String :=
  mapGet cache key

/-- `AsyncBrowserStorage.setCache`: `if (value)` — only truthy values are
stored, so an absent argument (`none`) and the empty string both leave the
overlay untouched. -/
def setCache (cache : Store) (key : String) (value : Option String) : Store :=
  match value with
  | some v => if v = "" then cache else mapSet cache key v
  | none => cache

/-- `AsyncBrowserStorage.removeCache`: delete from the overlay directly. -/
def removeCache (cache : Store) (key : String) : Store :=
  mapDelete cache key

/-- `AsyncBrowserStorage.get`: read `pfx + key` from the real adapter
through `fromStore`. -/
def get (st : AsyncBrowserStorage σ γ) (s : σ) (key : String) : JsVal :=
  fromStore st.serializer (st.adapter.getItem s (st.pfx ++ key))

/-- `AsyncBrowserStorage.set`: same try/catch contract as the synchronous
`set`. -/
def set (st : AsyncBrowserStorage σ γ) (s : σ) (key : String) (value : Option JsVal)
    (config : Option γ) : Bool × σ :=
  match toStore st.serializer value with
  | none => (false, s)
  | some stored =>
    match st.adapter.setItem s (st.pfx ++ key) stored config with
    | none => (false, s)
    | some s2 => (true, s2)

/-- `AsyncBrowserStorage.remove`: delegate to `removeItem` on `pfx + key`. -/
def remove (st : AsyncBrowserStorage σ γ) (s : σ) (key : String) : σ :=
  st.adapter.removeItem s (st.pfx ++ key)

/-- `AsyncBrowserStorage.pop`: `await get`, then `await remove`, returning
the read item. -/
def pop (st : AsyncBrowserStorage σ γ) (s : σ) (key : String) : JsVal × σ :=
  (st.get s key, st.remove s key)

/-- `AsyncBrowserStorage.clear`: the adapter's optional `clear`. -/
def clear (st : AsyncBrowserStorage σ γ) (s : σ) : σ :=
  match st.adapter.clear with
  | some f => f s
  | none => s

/-- `AsyncBrowserStorage.define`: same delegation pattern as the
synchronous facade. -/
def define (st : AsyncBrowserStorage σ γ) (key : String) (defaultConfig : Option γ) :
    DefineResponse σ γ :=
  { get := fun s => st.get s key
    set := fun s value config =>
      st.set s key value (match config with | some c => some c | none => defaultConfig)
    remove := fun s => st.remove s key
    pop := fun s => st.pop s key }

/-- `AsyncBrowserStorage.defineGroup`: `define` applied to each mapping
entry, no default config. -/
def defineGroup (st : AsyncBrowserStorage σ γ) (group : List (String × String))
    (name : String) : Option (DefineResponse σ γ) :=
  (mapGet group name).map (fun physical => st.define physical none)

end AsyncBrowserStorage

/-- Whether a character is a decimal digit, for the modelled JSON number
grammar. -/
def isJsonDigit (c : Char) : Bool :=
  c.isDigit

/-- Decimal value of a digit string. -/
def digitsVal (l : List Char) : Nat :=
  l.foldl (fun n c => 10 * n + (c.toNat - '0'.toNat)) 0

/-- Modelled from the spec: the default serializer is the environment's
JSON codec, an external collaborator ("default behaves like a JSON codec",
spec section 2); the codec itself is not part of the repository source, so
its parsing is modelled here on the scalar fragment of JSON (the literals
`null`, `true`, `false`, integers, and quoted strings without escape
sequences); anything else throws (`none`), as `JSON.parse` throws on
non-JSON input. -/
def jsonParseChars (l : List Char) : Option JsVal :=
  if l = "null".data then some JsVal.vNull
  else if l = "true".data then some (JsVal.vBool true)
  else if l = "false".data then some (JsVal.vBool false)
  else if !l.isEmpty && l.all isJsonDigit then
    some (JsVal.vNum (Int.ofNat (digitsVal l)))
  else
    match l with
    | '-' :: rest =>
      if !rest.isEmpty && rest.all isJsonDigit then
        some (JsVal.vNum (-(Int.ofNat (digitsVal rest))))
      else none
    | '"' :: rest =>
      if rest.getLast? = some '"'
          && rest.dropLast.all (fun c => !(c = '"' : Bool) && !(c = '\\' : Bool)) then
        some (JsVal.vStr (String.mk rest.dropLast))
      else none
    | _ => none

/-- Modelled from the spec: `JSON.stringify` on the scalar fragment
(string escaping is outside the modelled fragment). -/
def jsonStringify : JsVal → String
  | JsVal.vNull => "null"
  | JsVal.vBool true => "true"
  | JsVal.vBool false => "false"
  | JsVal.vNum n => toString n
  | JsVal.vStr s => String.mk ('"' :: (s.data ++ ['"']))

/-- Modelled from the spec: the default `JSON` serializer.  `stringify`
never throws on the scalar fragment; `parse` throws exactly on strings the
modelled grammar rejects. -/
def jsonSerializer : Serializer :=
  { parse := fun s => jsonParseChars s.data
    stringify := fun v => some (jsonStringify v) }

/-- A synchronous facade over the in-memory adapter with the default JSON
serializer and empty prefix — the `new BrowserStorage()` default. -/
def jsonFacade : BrowserStorage Store Unit :=
  { adapter := MemoryStorageAdapter Unit, pfx := "", serializer := jsonSerializer }

/-- A serializer whose textual encoding of null is `"NIL"` rather than
`"null"`, and whose `parse` never throws; used to separate the literal
`"null"` check in `fromStore` from the serializer's own null encoding. -/
def nilSerializer : Serializer :=
  { parse := fun s => if s = "NIL" then some (JsVal.vStr "surprise") else some (JsVal.vStr s)
    stringify := fun v =>
      some (match v with
        | JsVal.vNull => "NIL"
        | w => jsonStringify w) }

/-- A facade using `nilSerializer` over the in-memory adapter, empty
prefix. -/
def nilFacade : BrowserStorage Store Unit :=
  { adapter := MemoryStorageAdapter Unit, pfx := "", serializer := nilSerializer }

/-- A serializer that throws on every `parse` and every `stringify` (the
test suite's stub serializer built from `{ ...JSON }` behaves this way:
the spread copies no methods, so both operations throw). -/
def throwingSerializer : Serializer :=
  { parse := fun _ => none
    stringify := fun _ => none }

/-- An adapter whose `setItem` always throws (for the quota-exceeded /
failing-backend scenarios); reads and removes behave like the in-memory
adapter. -/
def throwingSetAdapter (γ : Type) : Adapter Store γ :=
  { getItem := mapGet
    setItem := fun _ _ _ _ => none
    removeItem := mapDelete
    clear := some (fun _ => []) }

/-- The asynchronous facade used in the prefixed-cache scenarios: in-memory
backend, prefix `"p:"`, default JSON serializer. -/
def asyncPrefixedFacade : AsyncBrowserStorage Store Unit :=
  { adapter := MemoryStorageAdapter Unit, pfx := "p:", serializer := jsonSerializer }

/-! Helper lemmas about the in-memory adapter's map operations. -/

theorem empty_append (s : String) : "" ++ s = s := by
  cases s with
  | mk data => rfl

theorem mapGet_mapSet (m : Store) (k v K : String) :
    mapGet (mapSet m k v) K = if k = K then some v else mapGet m K := by
  induction m with
  | nil => simp [mapSet, mapGet]
  | cons e rest ih =>
    obtain ⟨k2, v2⟩ := e
    by_cases h : k2 = k <;> by_cases hK : k = K <;>
      simp_all [mapSet, mapGet]

theorem mapGet_mapDelete (m : Store) (k K : String) :
    mapGet (mapDelete m k) K = if k = K then none else mapGet m K := by
  induction m with
  | nil => simp [mapDelete, mapGet]
  | cons e rest ih =>
    obtain ⟨k2, v2⟩ := e
    by_cases h : k2 = k <;> by_cases hK : k = K <;>
      simp_all [mapDelete, mapGet]

theorem mem_mapSet (m : Store) (k v : String) (q : String × String)
    (h : q ∈ mapSet m k v) : q ∈ m ∨ q = (k, v) := by
  induction m with
  | nil =>
    simp only [mapSet, List.mem_singleton] at h
    right; exact h
  | cons e rest ih =>
    obtain ⟨k2, v2⟩ := e
    by_cases h2 : k2 = k
    · simp only [mapSet, if_pos h2] at h
      rcases List.mem_cons.mp h with h3 | h3
      · right; rw [h3, h2]
      · left; exact List.mem_cons_of_mem _ h3
    · simp only [mapSet, if_neg h2] at h
      rcases List.mem_cons.mp h with h3 | h3
      · left; rw [h3]; exact List.mem_cons_self _ _
      · rcases ih h3 with h4 | h4
        · left; exact List.mem_cons_of_mem _ h4
        · right; exact h4

theorem syncCache_memory (p : String) (ser : Serializer) (cache b : Store) :
    AsyncBrowserStorage.syncCache ⟨MemoryStorageAdapter Unit, p, ser⟩ cache b
      = some (cache.foldl (fun acc e => mapSet acc e.1 e.2) b) := by
  induction cache generalizing b with
  | nil => rfl
  | cons e rest ih =>
    obtain ⟨k2, v2⟩ := e
    rw [List.foldl_cons, ← ih (mapSet b k2 v2)]
    rfl

theorem mapGet_syncStore_notMem (cache b : Store) (K : String)
    (h : K ∉ cache.map Prod.fst) :
    mapGet (cache.foldl (fun acc e => mapSet acc e.1 e.2) b) K = mapGet b K := by
  induction cache generalizing b with
  | nil => rfl
  | cons e rest ih =>
    obtain ⟨k2, v2⟩ := e
    simp only [List.map_cons, List.mem_cons, not_or] at h
    rw [List.foldl_cons, ih _ h.2, mapGet_mapSet]
    exact if_neg (fun hk => h.1 hk.symm)

/-! Claim theorems. -/

/-- Claim C1 (counterexample): on the default facade (in-memory adapter,
default JSON serializer, empty prefix), storing the plain string `"null"`
succeeds — the write bypasses serialization — but reading it back yields
`null`, not the string `"null"`: the read side short-circuits the literal
`"null"` before the string can be returned, so `set(k, v)` then `get(k)`
does not return `v` for every plain string `v`. -/
theorem C1_counterexample :
    (BrowserStorage.set jsonFacade [] "k" (some (JsVal.vStr "null")) none).1 = true ∧
    BrowserStorage.get jsonFacade
      (BrowserStorage.set jsonFacade [] "k" (some (JsVal.vStr "null")) none).2 "k"
      = JsVal.vNull ∧
    JsVal.vNull ≠ JsVal.vStr "null" := by
  decide

/-- Claim C1 (amended): for every serializer (the default JSON one
included), every prefix and adapter state, and every string `v` other than
the literal `"null"` on which the serializer's `parse` throws, `set(k, v)`
returns true and a subsequent `get(k)` returns exactly the string `v`:
the write stores `v` unwrapped and the read's parse attempt fails, so the
raw string falls through unchanged. -/
theorem C1_amended (ser : Serializer) (p : String) (s : Store) (k v : String)
    (hv : v ≠ "null") (hp : ser.parse v = none) :
    (BrowserStorage.set ⟨MemoryStorageAdapter Unit, p, ser⟩ s k
        (some (JsVal.vStr v)) none).1 = true ∧
    BrowserStorage.get ⟨MemoryStorageAdapter Unit, p, ser⟩
      (BrowserStorage.set ⟨MemoryStorageAdapter Unit, p, ser⟩ s k
        (some (JsVal.vStr v)) none).2 k
      = JsVal.vStr v := by
  constructor
  · rfl
  · simp [BrowserStorage.set, BrowserStorage.get, toStore, MemoryStorageAdapter,
      fromStore, mapGet_mapSet, hv, hp]

/-- Witness for `C1_amended` at the always-throwing serializer,
`k = "k"`, `v = "abc"`. -/
theorem C1_amended_witness :
    ("abc" : String) ≠ "null" ∧ throwingSerializer.parse "abc" = none ∧
    (BrowserStorage.set ⟨MemoryStorageAdapter Unit, "", throwingSerializer⟩ [] "k"
        (some (JsVal.vStr "abc")) none).1 = true ∧
    BrowserStorage.get ⟨MemoryStorageAdapter Unit, "", throwingSerializer⟩
      (BrowserStorage.set ⟨MemoryStorageAdapter Unit, "", throwingSerializer⟩ [] "k"
        (some (JsVal.vStr "abc")) none).2 "k"
      = JsVal.vStr "abc" :=
  ⟨by decide, rfl, C1_amended throwingSerializer "" [] "k" "abc" (by decide) rfl⟩

/-- Claim C4 (counterexample): for a stored string the serializer cannot
parse, `get` does not return null — it returns the raw string.  Here the
state holds `"hello"` under the key and the serializer's `parse` throws on
it, yet `get` returns the string `"hello"`. -/
theorem C4_counterexample :
    throwingSerializer.parse "hello" = none ∧
    BrowserStorage.get ⟨MemoryStorageAdapter Unit, "", throwingSerializer⟩
      [("k", "hello")] "k" = JsVal.vStr "hello" ∧
    JsVal.vStr "hello" ≠ JsVal.vNull := by
  decide

/-- Claim C4 (amended): `get` is total (the parse attempt is inside a
`try`, so no error propagates) and returns null when the stored content is
absent or is the literal `"null"`; when the stored content cannot be
parsed by the serializer it returns the raw string, not null. -/
theorem C4_amended (ser : Serializer) (p : String) (s : Store) (k : String) :
    (mapGet s (p ++ k) = none →
      BrowserStorage.get ⟨MemoryStorageAdapter Unit, p, ser⟩ s k = JsVal.vNull) ∧
    (mapGet s (p ++ k) = some "null" →
      BrowserStorage.get ⟨MemoryStorageAdapter Unit, p, ser⟩ s k = JsVal.vNull) ∧
    (∀ c, mapGet s (p ++ k) = some c → c ≠ "null" → ser.parse c = none →
      BrowserStorage.get ⟨MemoryStorageAdapter Unit, p, ser⟩ s k = JsVal.vStr c) := by
  refine ⟨?_, ?_, ?_⟩
  · intro h
    simp [BrowserStorage.get, MemoryStorageAdapter, fromStore, h]
  · intro h
    simp [BrowserStorage.get, MemoryStorageAdapter, fromStore, h]
  · intro c h hnull hparse
    simp [BrowserStorage.get, MemoryStorageAdapter, fromStore, h, hnull, hparse]

/-- Witness for `C4_amended` on the empty state: `get` of an unwritten key
is null. -/
theorem C4_amended_witness :
    BrowserStorage.get ⟨MemoryStorageAdapter Unit, "", jsonSerializer⟩ [] "k"
      = JsVal.vNull :=
  (C4_amended jsonSerializer "" [] "k").1 rfl

/-- Claim C5 (confirmed): when the stored string `c` is not the literal
`"null"` and the serializer's `parse` throws on it, `get` of the key
holding `c` returns the raw string `c` itself — in particular not null
(and the model's `get` is total, so nothing is thrown). -/
theorem C5_parse_failure_returns_raw (ser : Serializer) (p : String) (s : Store)
    (k c : String) (hstored : mapGet s (p ++ k) = some c) (hnull : c ≠ "null")
    (hparse : ser.parse c = none) :
    BrowserStorage.get ⟨MemoryStorageAdapter Unit, p, ser⟩ s k = JsVal.vStr c ∧
    JsVal.vStr c ≠ JsVal.vNull := by
  constructor
  · simp [BrowserStorage.get, MemoryStorageAdapter, fromStore, hstored, hnull, hparse]
  · intro h
    cases h

/-- Witness for `C5_parse_failure_returns_raw` with `"hello world"` stored
under the physical key `"k"` and the always-throwing serializer. -/
theorem C5_parse_failure_returns_raw_witness :
    BrowserStorage.get ⟨MemoryStorageAdapter Unit, "", throwingSerializer⟩
      [("k", "hello world")] "k" = JsVal.vStr "hello world" ∧
    JsVal.vStr "hello world" ≠ JsVal.vNull :=
  C5_parse_failure_returns_raw throwingSerializer "" [("k", "hello world")] "k"
    "hello world" (by decide) (by decide) rfl

/-- Claim C9 (counterexample): the null short-circuit in `fromStore`
compares against the literal string `"null"`, not against the serializer's
own encoding of null.  `nilSerializer` encodes null as `"NIL"`, yet a
stored `"NIL"` is handed to `parse` (which returns the string
`"surprise"`), so `get` does not return null for it. -/
theorem C9_counterexample :
    nilSerializer.stringify JsVal.vNull = some "NIL" ∧
    BrowserStorage.get nilFacade [("k", "NIL")] "k" = JsVal.vStr "surprise" ∧
    JsVal.vStr "surprise" ≠ JsVal.vNull := by
  decide

/-- Claim C9 (amended): the short-circuit is keyed on the literal string
`"null"` irrespective of the serializer: a stored `"null"` is read as null
for every serializer (its `parse` is never consulted — the first conjunct
holds with `ser.parse` arbitrary), and every other stored string is read
through `parse`, falling back to the raw string when `parse` throws. -/
theorem C9_amended (ser : Serializer) (p : String) (s : Store) (k : String) :
    (mapGet s (p ++ k) = some "null" →
      BrowserStorage.get ⟨MemoryStorageAdapter Unit, p, ser⟩ s k = JsVal.vNull) ∧
    (∀ c, mapGet s (p ++ k) = some c → c ≠ "null" →
      BrowserStorage.get ⟨MemoryStorageAdapter Unit, p, ser⟩ s k
        = (match ser.parse c with
          | some w => w
          | none => JsVal.vStr c)) := by
  constructor
  · intro h
    simp [BrowserStorage.get, MemoryStorageAdapter, fromStore, h]
  · intro c h hnull
    simp [BrowserStorage.get, MemoryStorageAdapter, fromStore, h, hnull]

/-- Witness for `C9_amended`: the literal `"null"` stored under a
serializer that never returns null still reads back as null. -/
theorem C9_amended_witness :
    BrowserStorage.get nilFacade [("k", "null")] "k" = JsVal.vNull :=
  (C9_amended nilSerializer "" [("k", "null")] "k").1 rfl

/-- Claim C2 (counterexample): on an asynchronous facade with prefix
`"p:"`, `setCache("a", "v")` then `syncCache()` writes the backend key
`"a"` verbatim (the overlay is never prefixed), while `get("a")` reads
`"p:a"` — so after the sync resolves, `get` against the real backend
returns null, not a value derived from `"v"`. -/
theorem C2_counterexample :
    AsyncBrowserStorage.getCache (AsyncBrowserStorage.setCache [] "a" (some "v")) "a"
      = some "v" ∧
    AsyncBrowserStorage.syncCache asyncPrefixedFacade
      (AsyncBrowserStorage.setCache [] "a" (some "v")) [] = some [("a", "v")] ∧
    AsyncBrowserStorage.get asyncPrefixedFacade [("a", "v")] "a" = JsVal.vNull ∧
    JsVal.vNull ≠ fromStore jsonSerializer (some "v") := by
  decide

/-- Claim C2 (amended): on an asynchronous facade whose prefix is the
empty string, for every non-empty string `v`: `setCache(k, v)` then
`getCache(k)` returns `v` synchronously (the overlay operations never
consult the backend — they are functions of the overlay alone); the
backend state is untouched by `setCache`, so `get(k)` before the sync
still reads whatever the backend held; and after `syncCache()` resolves
the backend holds `v` under `k`, so `get(k)` returns `fromStore` of `v`. -/
theorem C2_amended (ser : Serializer) (b : Store) (k v : String) (hv : v ≠ "") :
    AsyncBrowserStorage.getCache (AsyncBrowserStorage.setCache [] k (some v)) k
      = some v ∧
    AsyncBrowserStorage.get ⟨MemoryStorageAdapter Unit, "", ser⟩ b k
      = fromStore ser (mapGet b k) ∧
    AsyncBrowserStorage.syncCache ⟨MemoryStorageAdapter Unit, "", ser⟩
      (AsyncBrowserStorage.setCache [] k (some v)) b = some (mapSet b k v) ∧
    AsyncBrowserStorage.get ⟨MemoryStorageAdapter Unit, "", ser⟩ (mapSet b k v) k
      = fromStore ser (some v) := by
  have hset : AsyncBrowserStorage.setCache [] k (some v) = [(k, v)] := by
    simp [AsyncBrowserStorage.setCache, hv, mapSet]
  refine ⟨?_, ?_, ?_, ?_⟩
  · rw [hset]
    simp [AsyncBrowserStorage.getCache, mapGet]
  · simp [AsyncBrowserStorage.get, MemoryStorageAdapter, empty_append]
  · rw [hset, syncCache_memory]
    simp
  · simp [AsyncBrowserStorage.get, MemoryStorageAdapter, empty_append, mapGet_mapSet]

/-- Witness for `C2_amended` at `k = "a"`, `v = "v"`, empty backend. -/
theorem C2_amended_witness :
    AsyncBrowserStorage.getCache (AsyncBrowserStorage.setCache [] "a" (some "v")) "a"
      = some "v" ∧
    AsyncBrowserStorage.syncCache ⟨MemoryStorageAdapter Unit, "", throwingSerializer⟩
      (AsyncBrowserStorage.setCache [] "a" (some "v")) [] = some (mapSet [] "a" "v") ∧
    AsyncBrowserStorage.get ⟨MemoryStorageAdapter Unit, "", throwingSerializer⟩
      (mapSet [] "a" "v") "a" = fromStore throwingSerializer (some "v") :=
  ⟨(C2_amended throwingSerializer [] "a" "v" (by decide)).1,
   (C2_amended throwingSerializer [] "a" "v" (by decide)).2.2.1,
   (C2_amended throwingSerializer [] "a" "v" (by decide)).2.2.2⟩

/-- Claim C3 (counterexample): `syncCache` writes overlay keys verbatim.
With prefix `"p:"` and overlay entry `("a", "v")`, the sync writes the
backend key `"a"`, which is not of the form `"p:" ++ k` for any `k` —
a facade operation other than `clear()` touches a key outside the prefix
territory. -/
theorem C3_counterexample :
    AsyncBrowserStorage.syncCache asyncPrefixedFacade [("a", "v")] []
      = some [("a", "v")] ∧
    mapGet [("a", "v")] "a" = some "v" ∧
    (∀ k2 : String, "a" ≠ "p:" ++ k2) := by
  refine ⟨by decide, by decide, ?_⟩
  intro k2 h
  cases k2 with
  | mk l =>
    have h2 : "a".data = ("p:" ++ String.mk l).data := congrArg String.data h
    have h3 : ('a' : Char) :: [] = 'p' :: ':' :: l := h2
    simp at h3

/-- Claim C3 (amended): get, set, remove and pop — on both facades — read
and write only the adapter key `pfx ++ k`: any other key `K` holds the
same value after the operation as before, and `get` is exactly `fromStore`
of the adapter's content at `pfx ++ k`.  `syncCache`, however, writes the
overlay keys verbatim (without the prefix): the only backend keys it can
change are the overlay-held keys themselves, so with a nonempty prefix it
touches keys outside the prefix territory. -/
theorem C3_amended (ser : Serializer) (p : String) (s : Store) (k : String)
    (v : Option JsVal) (cfg : Option Unit) (K : String) (cache b b2 : Store)
    (hK : K ≠ p ++ k) :
    mapGet (BrowserStorage.set ⟨MemoryStorageAdapter Unit, p, ser⟩ s k v cfg).2 K
      = mapGet s K ∧
    mapGet (BrowserStorage.remove ⟨MemoryStorageAdapter Unit, p, ser⟩ s k) K
      = mapGet s K ∧
    mapGet (BrowserStorage.pop ⟨MemoryStorageAdapter Unit, p, ser⟩ s k).2 K
      = mapGet s K ∧
    BrowserStorage.get ⟨MemoryStorageAdapter Unit, p, ser⟩ s k
      = fromStore ser (mapGet s (p ++ k)) ∧
    mapGet (AsyncBrowserStorage.set ⟨MemoryStorageAdapter Unit, p, ser⟩ s k v cfg).2 K
      = mapGet s K ∧
    mapGet (AsyncBrowserStorage.remove ⟨MemoryStorageAdapter Unit, p, ser⟩ s k) K
      = mapGet s K ∧
    mapGet (AsyncBrowserStorage.pop ⟨MemoryStorageAdapter Unit, p, ser⟩ s k).2 K
      = mapGet s K ∧
    AsyncBrowserStorage.get ⟨MemoryStorageAdapter Unit, p, ser⟩ s k
      = fromStore ser (mapGet s (p ++ k)) ∧
    (AsyncBrowserStorage.syncCache ⟨MemoryStorageAdapter Unit, p, ser⟩ cache b
        = some b2 →
      mapGet b2 K ≠ mapGet b K → K ∈ cache.map Prod.fst) := by
  have hremove :
      mapGet (mapDelete s (p ++ k)) K = mapGet s K := by
    rw [mapGet_mapDelete]
    exact if_neg (fun h2 => hK h2.symm)
  have hsetcase :
      ∀ stored, mapGet (mapSet s (p ++ k) stored) K = mapGet s K := by
    intro stored
    rw [mapGet_mapSet]
    exact if_neg (fun h2 => hK h2.symm)
  have hset :
      mapGet (BrowserStorage.set ⟨MemoryStorageAdapter Unit, p, ser⟩ s k v cfg).2 K
        = mapGet s K := by
    cases h : toStore ser v with
    | none => simp [BrowserStorage.set, h]
    | some stored => simp [BrowserStorage.set, h, MemoryStorageAdapter, hsetcase]
  have hseta :
      mapGet (AsyncBrowserStorage.set ⟨MemoryStorageAdapter Unit, p, ser⟩ s k v cfg).2 K
        = mapGet s K := by
    cases h : toStore ser v with
    | none => simp [AsyncBrowserStorage.set, h]
    | some stored => simp [AsyncBrowserStorage.set, h, MemoryStorageAdapter, hsetcase]
  refine ⟨hset, hremove, hremove, rfl, hseta, hremove, hremove, rfl, ?_⟩
  intro hsync hne
  by_contra hmem
  rw [syncCache_memory] at hsync
  injection hsync with hb2
  rw [← hb2] at hne
  exact hne (mapGet_syncStore_notMem cache b K hmem)

/-- Witness for `C3_amended`: with prefix `"p:"` and caller key `"a"`, a
`set` leaves the unrelated raw key `"x"` untouched. -/
theorem C3_amended_witness :
    mapGet (BrowserStorage.set ⟨MemoryStorageAdapter Unit, "p:", jsonSerializer⟩
      [("x", "y")] "a" (some (JsVal.vStr "w")) none).2 "x" = mapGet [("x", "y")] "x" :=
  (C3_amended jsonSerializer "p:" [("x", "y")] "a" (some (JsVal.vStr "w")) none "x"
    [] [] [] (by decide)).1

/-- Claim C6 (confirmed): `set` returns true exactly when both the
serialization step (`toStore`, which invokes `stringify` for non-string
values) and the adapter's `setItem` succeed; when either throws, `set`
returns false — the model's `set` is a total function, so no exception
reaches the caller. -/
theorem C6_set_error_contract {σ γ : Type} (a : Adapter σ γ) (ser : Serializer)
    (p : String) (s : σ) (k : String) (v : Option JsVal) (cfg : Option γ) :
    ((BrowserStorage.set ⟨a, p, ser⟩ s k v cfg).1 = true ↔
      ∃ stored s2, toStore ser v = some stored ∧
        a.setItem s (p ++ k) stored cfg = some s2) ∧
    (toStore ser v = none → (BrowserStorage.set ⟨a, p, ser⟩ s k v cfg).1 = false) ∧
    (∀ stored, toStore ser v = some stored →
      a.setItem s (p ++ k) stored cfg = none →
      (BrowserStorage.set ⟨a, p, ser⟩ s k v cfg).1 = false) := by
  refine ⟨⟨?_, ?_⟩, ?_, ?_⟩
  · intro htrue
    cases h : toStore ser v with
    | none => simp [BrowserStorage.set, h] at htrue
    | some stored =>
      cases h2 : a.setItem s (p ++ k) stored cfg with
      | none => simp [BrowserStorage.set, h, h2] at htrue
      | some s2 => exact ⟨stored, s2, rfl, h2⟩
  · rintro ⟨stored, s2, hst, hset⟩
    simp [BrowserStorage.set, hst, hset]
  · intro h
    simp [BrowserStorage.set, h]
  · intro stored hst hset
    simp [BrowserStorage.set, hst, hset]

/-- Witness for `C6_set_error_contract`: a throwing `setItem` yields
false, a throwing `stringify` yields false, and the in-memory adapter
with a string value yields true. -/
theorem C6_set_error_contract_witness :
    (BrowserStorage.set ⟨throwingSetAdapter Unit, "", jsonSerializer⟩ [] "k"
      (some (JsVal.vStr "x")) none).1 = false ∧
    (BrowserStorage.set ⟨MemoryStorageAdapter Unit, "", throwingSerializer⟩ [] "k"
      (some JsVal.vNull) none).1 = false ∧
    (BrowserStorage.set ⟨MemoryStorageAdapter Unit, "", jsonSerializer⟩ [] "k"
      (some (JsVal.vStr "x")) none).1 = true :=
  ⟨(C6_set_error_contract (throwingSetAdapter Unit) jsonSerializer "" [] "k"
      (some (JsVal.vStr "x")) none).2.2 "x" rfl rfl,
   (C6_set_error_contract (MemoryStorageAdapter Unit) throwingSerializer "" [] "k"
      (some JsVal.vNull) none).2.1 rfl,
   (C6_set_error_contract (MemoryStorageAdapter Unit) jsonSerializer "" [] "k"
      (some (JsVal.vStr "x")) none).1.mpr
     ⟨"x", mapSet [] ("" ++ "k") "x", rfl, rfl⟩⟩

/-- Claim C7 (confirmed): on both facades, `pop` returns exactly what
`get` returns on the pre-state and its post-state is the pre-state with
`remove` applied; for any adapter on which a removed key reads back as
absent (the in-memory adapter is one), a subsequent `get` returns null. -/
theorem C7_pop_get_remove {σ γ : Type} (a : Adapter σ γ) (ser : Serializer)
    (p : String) (s : σ) (k : String)
    (hrm : ∀ t K, a.getItem (a.removeItem t K) K = none) :
    (BrowserStorage.pop ⟨a, p, ser⟩ s k).1 = BrowserStorage.get ⟨a, p, ser⟩ s k ∧
    (BrowserStorage.pop ⟨a, p, ser⟩ s k).2 = BrowserStorage.remove ⟨a, p, ser⟩ s k ∧
    BrowserStorage.get ⟨a, p, ser⟩ (BrowserStorage.pop ⟨a, p, ser⟩ s k).2 k
      = JsVal.vNull ∧
    (AsyncBrowserStorage.pop ⟨a, p, ser⟩ s k).1
      = AsyncBrowserStorage.get ⟨a, p, ser⟩ s k ∧
    (AsyncBrowserStorage.pop ⟨a, p, ser⟩ s k).2
      = AsyncBrowserStorage.remove ⟨a, p, ser⟩ s k ∧
    AsyncBrowserStorage.get ⟨a, p, ser⟩ (AsyncBrowserStorage.pop ⟨a, p, ser⟩ s k).2 k
      = JsVal.vNull := by
  refine ⟨rfl, rfl, ?_, rfl, rfl, ?_⟩
  · show fromStore ser (a.getItem (a.removeItem s (p ++ k)) (p ++ k)) = JsVal.vNull
    rw [hrm]
    rfl
  · show fromStore ser (a.getItem (a.removeItem s (p ++ k)) (p ++ k)) = JsVal.vNull
    rw [hrm]
    rfl

/-- Witness for `C7_pop_get_remove` on the in-memory adapter with `"x"`
stored under `"k"`. -/
theorem C7_pop_get_remove_witness :
    BrowserStorage.get ⟨MemoryStorageAdapter Unit, "", jsonSerializer⟩
      (BrowserStorage.pop ⟨MemoryStorageAdapter Unit, "", jsonSerializer⟩
        [("k", "x")] "k").2 "k" = JsVal.vNull :=
  (C7_pop_get_remove (MemoryStorageAdapter Unit) jsonSerializer "" [("k", "x")] "k"
    (fun t K => by
      show mapGet (mapDelete t K) K = none
      rw [mapGet_mapDelete, if_pos rfl])).2.2.1

/-- Claim C8 (confirmed): a `define` handle's get, set, remove and pop are
exactly the facade's operations at the bound key; `set` with no per-call
config uses the handle's default config, and an explicit per-call config
wins; a `defineGroup` handle for a logical name is exactly
`define physicalKey` with no default config. -/
theorem C8_define_delegation {σ γ : Type} (a : Adapter σ γ) (ser : Serializer)
    (p key : String) (dcfg : Option γ) (s : σ) (v : Option JsVal) (c : γ)
    (group : List (String × String)) (name physical : String)
    (hfind : mapGet group name = some physical) :
    (BrowserStorage.define ⟨a, p, ser⟩ key dcfg).get s
      = BrowserStorage.get ⟨a, p, ser⟩ s key ∧
    (BrowserStorage.define ⟨a, p, ser⟩ key dcfg).set s v (some c)
      = BrowserStorage.set ⟨a, p, ser⟩ s key v (some c) ∧
    (BrowserStorage.define ⟨a, p, ser⟩ key dcfg).set s v none
      = BrowserStorage.set ⟨a, p, ser⟩ s key v dcfg ∧
    (BrowserStorage.define ⟨a, p, ser⟩ key dcfg).remove s
      = BrowserStorage.remove ⟨a, p, ser⟩ s key ∧
    (BrowserStorage.define ⟨a, p, ser⟩ key dcfg).pop s
      = BrowserStorage.pop ⟨a, p, ser⟩ s key ∧
    BrowserStorage.defineGroup ⟨a, p, ser⟩ group name
      = some (BrowserStorage.define ⟨a, p, ser⟩ physical none) ∧
    (BrowserStorage.define ⟨a, p, ser⟩ physical none).set s v none
      = BrowserStorage.set ⟨a, p, ser⟩ s physical v none ∧
    (BrowserStorage.define ⟨a, p, ser⟩ physical none).get s
      = BrowserStorage.get ⟨a, p, ser⟩ s physical := by
  refine ⟨rfl, rfl, rfl, rfl, rfl, ?_, rfl, rfl⟩
  simp [BrowserStorage.defineGroup, hfind]

/-- Witness for `C8_define_delegation` on the README's token group. -/
theorem C8_define_delegation_witness :
    BrowserStorage.defineGroup ⟨MemoryStorageAdapter Unit, "", jsonSerializer⟩
      [("token", "refresh_token")] "token"
      = some (BrowserStorage.define ⟨MemoryStorageAdapter Unit, "", jsonSerializer⟩
          "refresh_token" none) :=
  (C8_define_delegation (MemoryStorageAdapter Unit) jsonSerializer "" "k" none []
    (some (JsVal.vStr "x")) () [("token", "refresh_token")] "token" "refresh_token"
    (by decide)).2.2.2.2.2.1

/-- Claim C10 (confirmed): `setCache` with the empty string (or with no
value at all) leaves the overlay unchanged, so `getCache` answers the same
before and after; a non-empty value is stored and read back; and the
overlay invariant "every stored value is non-empty" is preserved by every
`setCache` call. -/
theorem C10_setCache_falsy_noop (cache : Store) (k : String) :
    AsyncBrowserStorage.setCache cache k (some "") = cache ∧
    AsyncBrowserStorage.setCache cache k none = cache ∧
    AsyncBrowserStorage.getCache (AsyncBrowserStorage.setCache cache k (some "")) k
      = AsyncBrowserStorage.getCache cache k ∧
    AsyncBrowserStorage.getCache (AsyncBrowserStorage.setCache cache k none) k
      = AsyncBrowserStorage.getCache cache k ∧
    (∀ v, v ≠ "" →
      AsyncBrowserStorage.getCache (AsyncBrowserStorage.setCache cache k (some v)) k
        = some v) ∧
    (∀ vOpt q, (∀ r ∈ cache, r.2 ≠ "") →
      q ∈ AsyncBrowserStorage.setCache cache k vOpt → q.2 ≠ "") := by
  refine ⟨rfl, rfl, rfl, rfl, ?_, ?_⟩
  · intro v hv
    simp [AsyncBrowserStorage.setCache, AsyncBrowserStorage.getCache, hv, mapGet_mapSet]
  · intro vOpt q hall hq
    cases vOpt with
    | none => exact hall q hq
    | some v =>
      by_cases hv : v = ""
      · rw [AsyncBrowserStorage.setCache, if_pos hv] at hq
        exact hall q hq
      · rw [AsyncBrowserStorage.setCache, if_neg hv] at hq
        rcases mem_mapSet cache k v q hq with h | h
        · exact hall q h
        · rw [h]
          exact hv

/-- Witness for `C10_setCache_falsy_noop` at overlay `[("a", "x")]`. -/
theorem C10_setCache_falsy_noop_witness :
    AsyncBrowserStorage.setCache [("a", "x")] "a" (some "") = [("a", "x")] ∧
    AsyncBrowserStorage.getCache
      (AsyncBrowserStorage.setCache [("a", "x")] "a" (some "v")) "a" = some "v" :=
  ⟨(C10_setCache_falsy_noop [("a", "x")] "a").1,
   (C10_setCache_falsy_noop [("a", "x")] "a").2.2.2.2.1 "v" (by decide)⟩

end BrowserStorageModel
